import Mathlib

/-!
Verification development for the react-advanced-state-hook repository.

The repository contains two main iterations of the same hook:
  * src/src/index.js  — class AdvancedStateStore, object-envelope storage,
    hardcoded key scheme, whole update debounced;
  * src/src/index.jsx — createStore closure, direct-value storage,
    configurable key scheme, only the sync debounced.
Below, definitions from src/src/index.js live in namespace Js and
definitions from src/src/index.jsx live in namespace Jsx.

JS values flowing through the hook are modelled by the inductive type
Json (JSON numbers are modelled as integers; none of the verified
properties involves numeric computation).  The JS distinction between a
value that is absent / undefined and a present value is modelled with
Option Json.  JS Map objects and JSON objects are modelled as
association lists in insertion order, which is the iteration order of a
JS Map and the key order of a parsed JSON object.  The JSON.stringify /
JSON.parse text layer is elided: storage engines are modelled as maps
from string keys directly to parsed values, which is faithful because
stringify followed by parse is the identity on JSON-representable
values and every parse failure is caught and treated as absent.
-/

mutual

/-- A JSON-serializable JS value (arrays and objects through the two
auxiliary types below, so that decidable equality can be derived). -/
inductive Json where
  | null : Json
  | bool : Bool → Json
  | num : Int → Json
  | str : String → Json
  | arr : JsonElems → Json
  | obj : JsonFields → Json
deriving DecidableEq

/-- Elements of a JSON array. -/
inductive JsonElems where
  | nil : JsonElems
  | cons : Json → JsonElems → JsonElems
deriving DecidableEq

/-- Fields of a JSON object. -/
inductive JsonFields where
  | nil : JsonFields
  | cons : String → Json → JsonFields → JsonFields
deriving DecidableEq

end

/-- Lookup in an association list (models JS Map.get / object property read;
the result none models the JS value undefined). -/
def lookupAssoc {α : Type} : List (String × α) → String → Option α
  | [], _ => none
  | (k, v) :: rest, key => if k = key then some v else lookupAssoc rest key

/-- Update or insert in an association list, keeping insertion order
(models JS Map.set and object property assignment). -/
def setAssoc {α : Type} : List (String × α) → String → α → List (String × α)
  | [], key, v => [(key, v)]
  | (k, w) :: rest, key, v =>
      if k = key then (k, v) :: rest else (k, w) :: setAssoc rest key v

/-- Delete from an association list (models the JS delete operator; a JS
object never holds two bindings of one key, so removing every binding of
the key agrees with JS semantics on all representable states). -/
def removeAssoc {α : Type} : List (String × α) → String → List (String × α)
  | [], _ => []
  | (k, w) :: rest, key =>
      if k = key then removeAssoc rest key else (k, w) :: removeAssoc rest key

-- ----------------------------------------------------------------------
-- PublishStore, iteration src/src/index.js (class AdvancedStateStore)
-- ----------------------------------------------------------------------

namespace Js

/-- State of the AdvancedStateStore class from src/src/index.js
(lines 16–61): a Map key → value plus a Map key → Set of subscriber
callbacks.  Callbacks are identified by natural numbers; each per-key
list is kept in Set insertion order, which is the order
Set.prototype.forEach visits them. -/
structure AdvancedStateStore where
  state : List (String × Json)
  subscribers : List (String × List Nat)
deriving DecidableEq

/-- AdvancedStateStore.get (src/src/index.js lines 29–31). -/
def AdvancedStateStore.get (s : AdvancedStateStore) (key : String) : Option Json :=
  lookupAssoc s.state key

/-- AdvancedStateStore.set (src/src/index.js lines 36–44).  Returns the
updated store together with the list of subscriber callbacks invoked,
in invocation order.  The JS guard uses strict equality on the stored
value; on the primitive values exercised here strict equality coincides
with the decidable value equality used below. -/
def AdvancedStateStore.set (s : AdvancedStateStore) (key : String) (value : Json) :
    AdvancedStateStore × List Nat :=
  if lookupAssoc s.state key = some value then
    (s, [])
  else
    ({ s with state := setAssoc s.state key value },
     (lookupAssoc s.subscribers key).getD [])

/-- AdvancedStateStore.subscribe (src/src/index.js lines 50–60), without
the returned unsubscriber.  Set.add appends the callback unless it is
already registered. -/
def AdvancedStateStore.subscribe (s : AdvancedStateStore) (key : String) (c : Nat) :
    AdvancedStateStore :=
  let cs := (lookupAssoc s.subscribers key).getD []
  { s with subscribers := setAssoc s.subscribers key (if c ∈ cs then cs else cs ++ [c]) }

end Js

-- ----------------------------------------------------------------------
-- PublishStore, iteration src/src/index.jsx (function createStore)
-- ----------------------------------------------------------------------

namespace Jsx

/-- State of the store built by createStore in src/src/index.jsx
(lines 20–65): one process-wide Set of subscriber callbacks (not keyed)
plus a Map key → value.  Callbacks are identified by natural numbers in
registration order. -/
structure Store where
  subscribers : List Nat
  stateValues : List (String × Json)
deriving DecidableEq

/-- createStore().subscribe (src/src/index.jsx lines 30–33), without the
returned unsubscriber. -/
def Store.subscribe (s : Store) (c : Nat) : Store :=
  { s with subscribers := if c ∈ s.subscribers then s.subscribers else s.subscribers ++ [c] }

/-- createStore().setState (src/src/index.jsx lines 40–45).  Returns the
updated store together with the invoked callbacks, each receiving the
pair (key, value), in invocation order.  There is no equality guard:
every call stores and notifies. -/
def Store.setState (s : Store) (key : String) (value : Json) :
    Store × List (Nat × String × Json) :=
  ({ s with stateValues := setAssoc s.stateValues key value },
   s.subscribers.map (fun c => (c, key, value)))

/-- createStore().getState (src/src/index.jsx line 52). -/
def Store.getState (s : Store) (key : String) : Option Json :=
  lookupAssoc s.stateValues key

/-- createStore().initState (src/src/index.jsx lines 59–63).  Returns the
updated store together with the (always empty) list of invoked
callbacks: the body contains no callback invocation at all. -/
def Store.initState (s : Store) (key : String) (value : Json) :
    Store × List (Nat × String × Json) :=
  if (lookupAssoc s.stateValues key).isSome then (s, [])
  else ({ s with stateValues := setAssoc s.stateValues key value }, [])

end Jsx

-- ----------------------------------------------------------------------
-- ScopeKeyResolver: URL parameter and path-pattern scope resolution
-- ----------------------------------------------------------------------

/-- Numeric value of a digit run, as computed by the JS parseInt of the
regex capture (the placeholder index written after the dollar sign). -/
def digitsToNat (ds : List Char) : Nat :=
  ds.foldl (fun acc c => acc * 10 + (c.toNat - 48)) 0

/-- The replacement callback of parsePathScope in src/src/index.js
(lines 139–150): the 1-indexed path segment when the index is in range,
the string "default" otherwise. -/
def substSegment_js (segs : List String) (n : Nat) : String :=
  if 1 ≤ n ∧ n ≤ segs.length then segs.getD (n - 1) "" else "default"

/-- The replacement callback of parsePathScope in src/src/index.jsx
(lines 94–97): the 1-indexed path segment when the index is in range,
the empty string otherwise (the JS expression segment-or-empty). -/
def substSegment_jsx (segs : List String) (n : Nat) : String :=
  if 1 ≤ n ∧ n ≤ segs.length then segs.getD (n - 1) "" else ""

/-- Output for one parsed placeholder candidate: a bare dollar sign (no
digits followed, the regex does not match, the character is copied
verbatim) or the substitution of the collected digit run, with the
hasMatch flag of src/src/index.js as first component. -/
def placeholderEmit (subst : Nat → String) (acc : List Char) : Bool × String :=
  if acc.isEmpty then (false, "$") else (true, subst (digitsToNat acc))

mutual

/-- Replacement of every dollar-digits placeholder in a pattern, as done
by String.replace with the global placeholder regex in both
parsePathScope variants (src/src/index.js line 139, src/src/index.jsx
line 94).  Returns whether any placeholder matched together with the
rewritten text.  The digit run after a dollar sign is matched greedily,
as the regex does. -/
def replacePlaceholders (subst : Nat → String) : List Char → Bool × String
  | [] => (false, "")
  | '$' :: cs => replaceAfterDollar subst [] cs
  | c :: cs =>
      let r := replacePlaceholders subst cs
      (r.1, String.singleton c ++ r.2)

/-- Scanner state after a dollar sign, with the digits collected so far. -/
def replaceAfterDollar (subst : Nat → String) (acc : List Char) :
    List Char → Bool × String
  | [] => placeholderEmit subst acc
  | c :: cs =>
      if c.isDigit then replaceAfterDollar subst (acc ++ [c]) cs
      else if c = '$' then
        let e := placeholderEmit subst acc
        let r := replaceAfterDollar subst [] cs
        (e.1 || r.1, e.2 ++ r.2)
      else
        let e := placeholderEmit subst acc
        let r := replacePlaceholders subst cs
        (e.1 || r.1, e.2 ++ String.singleton c ++ r.2)

end

namespace Js

/-- getUrlParam (src/src/index.js lines 114–121), for a client context:
the URL query is modelled as an association list of parameter names to
values.  A missing parameter — and, through the JS or-else on a falsy
string, an empty-valued one — yields the placeholder built from the
parameter name. -/
def getUrlParam (paramName : String) (params : List (String × String)) : String :=
  match lookupAssoc params paramName with
  | some v => if v = "" then "default-" ++ paramName else v
  | none => "default-" ++ paramName

/-- parsePathScope (src/src/index.js lines 128–161), for a client
context: segs is the list of nonempty slash-delimited segments of the
current path.  Without any placeholder in the pattern, the fixed scope
"default-path-scope" is returned. -/
def parsePathScope (pattern : String) (segs : List String) : String :=
  let r := replacePlaceholders (substSegment_js segs) pattern.data
  if r.1 then r.2 else "default-path-scope"

/-- getScopedStorageKey (src/src/index.js lines 168–182).  The two scope
options are modelled as Option String, none covering the JS-falsy
absent or empty cases.  Note: the property key is not part of this key;
the prefix is the hardcoded "advancedState"; values are stored inside
an object envelope at this key. -/
def getScopedStorageKey (scopeByUrlParam scopeByUrlPath : Option String)
    (params : List (String × String)) (segs : List String) : String :=
  match scopeByUrlParam with
  | some p => "advancedState:param:" ++ p ++ ":" ++ getUrlParam p params
  | none =>
      match scopeByUrlPath with
      | some pat => "advancedState:path:" ++ parsePathScope pat segs
      | none => "advancedState:global"

end Js

/-- The JS Array.prototype.filter(Boolean) step on a list of key parts:
keeps the truthy (nonempty) strings; the JS null scope is represented
as the empty string, which Boolean also rejects. -/
def truthyFilter : List String → List String
  | [] => []
  | s :: rest => if s = "" then truthyFilter rest else s :: truthyFilter rest

/-- The JS Array.prototype.join with a colon separator. -/
def joinColon : List String → String
  | [] => ""
  | [s] => s
  | s :: rest => s ++ ":" ++ joinColon rest

namespace Jsx

/-- getUrlParam (src/src/index.jsx lines 80–84), for a client context:
returns the raw parameter value or none, with no default substitution
(unlike the src/src/index.js variant). -/
def getUrlParam (name : String) (params : List (String × String)) : Option String :=
  lookupAssoc params name

/-- parsePathScope (src/src/index.jsx lines 91–100), for a client
context: none for an empty pattern, none when the rewritten text is
empty, and no defaulting of out-of-range placeholders beyond the empty
string. -/
def parsePathScope (pattern : String) (segs : List String) : Option String :=
  if pattern = "" then none
  else
    let s := (replacePlaceholders (substSegment_jsx segs) pattern.data).2
    if s = "" then none else some s

/-- getScopedStorageKey (src/src/index.jsx lines 111–119): resolves the
scope (with fixed fallbacks "default-param" / "default-path"), then
joins prefix, scope and key with colons, dropping falsy parts. -/
def getScopedStorageKey (pfx : String) (scopeByUrlParam scopeByUrlPath : Option String)
    (params : List (String × String)) (segs : List String) (key : String) : String :=
  let scope : String :=
    match scopeByUrlParam with
    | some p =>
        match getUrlParam p params with
        | some v => if v = "" then "default-param" else v
        | none => "default-param"
    | none =>
        match scopeByUrlPath with
        | some pat =>
            match parsePathScope pat segs with
            | some s => s
            | none => "default-path"
        | none => ""
  joinColon (truthyFilter [pfx, scope, key])

end Jsx

-- ----------------------------------------------------------------------
-- Notify option and DurableStorageAdapter
-- ----------------------------------------------------------------------

/-- The recognized values of the notify option (both variants compare
the option against the same three string constants). -/
inductive Notify where
  | off : Notify
  | crossComponent : Notify
  | crossTab : Notify
  | crossComponentAndTab : Notify
deriving DecidableEq

/-- The check notify === cross-component or cross-component-and-tab that
guards every same-process store interaction in both variants. -/
def Notify.includesComponent : Notify → Bool
  | .crossComponent => true
  | .crossComponentAndTab => true
  | _ => false

/-- The check notify === cross-tab or cross-component-and-tab. -/
def Notify.includesTab : Notify → Bool
  | .crossTab => true
  | .crossComponentAndTab => true
  | _ => false

namespace Js

/-- A storage engine as seen by src/src/index.js: every scoped key holds
a JSON object collecting the properties of that scope (the envelope
described at lines 163–167).  The engine itself is Option-wrapped at
use sites: none models the null engine returned by getStorageEngine
when persist is unset or no window exists. -/
abbrev Storage := List (String × List (String × Json))

/-- readFromStorage (src/src/index.js lines 187–201): no engine, a
missing item, a failed parse (elided, see the header) or a missing
property all yield undefined. -/
def readFromStorage (storage : Option Storage) (scopedKey propKey : String) : Option Json :=
  match storage with
  | none => none
  | some st =>
      match lookupAssoc st scopedKey with
      | none => none
      | some stateObject => lookupAssoc stateObject propKey

/-- writeToStorage (src/src/index.js lines 206–224): reads the envelope
object (or starts from an empty one), deletes the property when the
value is undefined or null, assigns it otherwise, and stores the
envelope back.  With no engine the call is a no-op. -/
def writeToStorage (storage : Option Storage) (scopedKey propKey : String)
    (value : Option Json) : Option Storage :=
  match storage with
  | none => none
  | some st =>
      let stateObject := (lookupAssoc st scopedKey).getD []
      let stateObject2 :=
        match value with
        | none => removeAssoc stateObject propKey
        | some Json.null => removeAssoc stateObject propKey
        | some v => setAssoc stateObject propKey v
      some (setAssoc st scopedKey stateObject2)

/-- The lazy useState initializer of useAdvancedState in
src/src/index.js (lines 302–330): context store value first (when
notify includes the cross-component mode and the store holds a value),
else the stored record, else the caller initial.  storeVal is the JS
expression store?.get(key) — none also covers the missing provider.
The store-priming side effect of lines 322–327 does not affect the
returned value and is part of the store model above. -/
def stateInit (notify : Notify) (storeVal : Option Json) (storage : Option Storage)
    (scopedKey propKey : String) (initial : Option Json) : Option Json :=
  if notify.includesComponent ∧ storeVal.isSome then storeVal
  else
    match storage with
    | none => initial
    | some st =>
        match readFromStorage (some st) scopedKey propKey with
        | some sv => some sv
        | none => initial

end Js

namespace Jsx

/-- A storage engine as seen by src/src/index.jsx: the bound value is
stored directly (JSON-encoded) at the scoped key, with no envelope. -/
abbrev Storage := List (String × Json)

/-- Steps 2 and 3 of getInitialValue (src/src/index.jsx lines 293–306),
shared by both storage outcomes: the context store value when notify
includes the cross-component mode and the store holds one, else the
store is primed with the caller initial (when given) and the store's
resulting value for the key is returned. -/
def getInitialValueTail (notify : Notify) (store : Store) (key : String)
    (initial : Option Json) : Option Json × Store :=
  if notify.includesComponent ∧ (Store.getState store key).isSome then
    (Store.getState store key, store)
  else
    let store2 :=
      match initial with
      | some i => (Store.initState store key i).1
      | none => store
    (Store.getState store2 key, store2)

/-- getInitialValue (src/src/index.jsx lines 273–307): checks storage
FIRST — when persist is configured and an item exists at the scoped
key, that item is returned (and primed into the context store) before
the store is even consulted.  Returns the resolved value together with
the store after the initState side effects.  none for storage models
persist unset or no window. -/
def getInitialValue (storage : Option Storage) (storageKey : String) (notify : Notify)
    (store : Store) (key : String) (initial : Option Json) : Option Json × Store :=
  match storage with
  | some st =>
      match lookupAssoc st storageKey with
      | some parsed => (some parsed, (Store.initState store key parsed).1)
      | none => getInitialValueTail notify store key initial
  | none => getInitialValueTail notify store key initial

end Jsx

/-- The initial-value priority stated by the claim, written from the
spec's words for refinement comparison: (1) the PublishStore value when
notify includes same-process sharing and the store holds one, else
(2) the durable record when persist is configured and a record exists,
else (3) the caller-supplied initial. -/
def specInitialValue (notifySameProcess : Bool) (storeVal : Option Json)
    (persistConfigured : Bool) (durableRecord : Option Json)
    (initial : Option Json) : Option Json :=
  if notifySameProcess ∧ storeVal.isSome then storeVal
  else if persistConfigured ∧ durableRecord.isSome then durableRecord
  else initial

-- ----------------------------------------------------------------------
-- StateBinding setter, DebounceCoordinator and teardown
-- ----------------------------------------------------------------------

namespace Js

/-- The per-binding configuration read by setFn in src/src/index.js:
the state key, the memoized scoped storage key, the debounce delay and
the notify mode. -/
structure Config where
  key : String
  scopedStorageKey : String
  debounce : Nat
  notify : Notify
deriving DecidableEq

/-- The mutable state touched by one src/src/index.js binding: the
visible value held in useState, the payload of the pending debounce
timeout (debounceTimeoutRef), the storage engine and the context store
(none when no provider encloses the consumer). -/
structure Binding where
  localValue : Option Json
  pending : Option Json
  storage : Option Storage
  store : Option AdvancedStateStore
deriving DecidableEq

/-- The inner update closure of setFn (src/src/index.js lines 421–436):
sets the visible value, persists through writeToStorage, and publishes
to the context store when notify includes the cross-component mode.
Subscriber fan-out of the store set is covered by the store model. -/
def update (cfg : Config) (b : Binding) (val : Json) : Binding :=
  { b with
    localValue := some val
    storage := writeToStorage b.storage cfg.scopedStorageKey cfg.key (some val)
    store :=
      if cfg.notify.includesComponent then
        match b.store with
        | some st => some (AdvancedStateStore.set st cfg.key val).1
        | none => none
      else b.store }

/-- setFn (src/src/index.js lines 414–452), applied to a direct new
value (the functional form first resolves the value against the
closure-captured one and proceeds identically).  With debounce > 0 the
WHOLE update — including the visible-value setValue — is moved into the
timeout: the prior timer is cancelled and the new payload replaces it,
and nothing else changes until the timer fires.  Only with debounce = 0
does update run synchronously. -/
def setFn (cfg : Config) (b : Binding) (newValue : Json) : Binding :=
  if 0 < cfg.debounce then
    { b with pending := some newValue }
  else
    update cfg b newValue

/-- The subscription state of one mounted src/src/index.js binding, as
far as the mount effect and its cleanup touch it. -/
structure Mounted where
  contextSubscribed : Bool
  storageListener : Bool
  pending : Option Json
deriving DecidableEq

/-- The effect cleanup of useAdvancedState (src/src/index.js lines
404–410): it calls contextUnsubscribe and eventUnsubscribe and nothing
else — in particular the pending debounce timeout held in
debounceTimeoutRef is NOT cleared anywhere on unmount (clearTimeout is
only called inside setFn when a newer set replaces the timer). -/
def cleanup (b : Mounted) : Mounted :=
  { b with contextSubscribed := false, storageListener := false }

/-- The host timer queue after teardown: a timeout scheduled by setFn
before unmount still runs its callback update(payload), whose
writeToStorage mutates the engine; shown here as the resulting engine
state. -/
def firePending (cfg : Config) (storage : Option Storage) (b : Mounted) : Option Storage :=
  match b.pending with
  | some v => writeToStorage storage cfg.scopedStorageKey cfg.key (some v)
  | none => storage

end Js

namespace Jsx

/-- The per-binding configuration read by setFn and performSync in
src/src/index.jsx. -/
structure Config where
  key : String
  storageKey : String
  debounce : Nat
  notify : Notify
deriving DecidableEq

/-- The mutable state touched by one src/src/index.jsx binding: visible
value, pending debounce payload (the timer closed over by the debounce
helper), configured storage engine (none when persist is unset or no
window exists) and the context store. -/
structure Binding where
  localValue : Option Json
  pending : Option Json
  storage : Option Storage
  store : Store
deriving DecidableEq

/-- performSync (src/src/index.jsx lines 346–368): persists the value at
the scoped key of the configured engine.  The cross-tab branch writes
and immediately removes the value on the OTHER engine; that transient
signal leaves the engines' contents unchanged in the writer's context
and is observable only as a change event elsewhere, so it does not
appear in this state. -/
def performSync (cfg : Config) (b : Binding) (newValue : Json) : Binding :=
  match b.storage with
  | some st => { b with storage := some (setAssoc st cfg.storageKey newValue) }
  | none => b

/-- setFn (src/src/index.jsx lines 428–453), applied to a direct new
value: inside the functional updater it publishes to the context store
immediately (when notify includes the cross-component mode), hands the
value to the debounced sync — a pending payload when debounce > 0,
performSync run synchronously otherwise — and returns the new value as
the immediate visible-value update. -/
def setFn (cfg : Config) (b : Binding) (newValue : Json) : Binding :=
  let b1 :=
    if cfg.notify.includesComponent then
      { b with store := (Store.setState b.store cfg.key newValue).1 }
    else b
  let b2 :=
    if 0 < cfg.debounce then { b1 with pending := some newValue }
    else performSync cfg b1 newValue
  { b2 with localValue := some newValue }

end Jsx

/-- One run of the trailing-edge debounce timer shared by both variants
(the debounce helper of src/src/index.jsx lines 218–225 and the inline
debounce branch of setFn in src/src/index.js lines 439–449), with the
stateful timer turned into explicit state passing: the state is the
pending timeout as an absolute fire time with its payload; a schedule
call at time t first lets a timer whose fire time has already passed
fire, then cancels any still-pending timer (clearTimeout) and starts a
fresh one for t plus the delay with the newest payload (setTimeout);
after the last call the remaining timer fires.  The returned list is
the sequence of sync invocations — each entry the time at which the
sync callback (update in src/src/index.js, performSync in
src/src/index.jsx, i.e. the durable write) runs and the value it
carries. -/
def debounceFires {α : Type} (d : Nat) :
    List (Nat × α) → Option (Nat × α) → List (Nat × α)
  | [], pending =>
      match pending with
      | none => []
      | some tp => [tp]
  | (t, p) :: rest, pending =>
      match pending with
      | none => debounceFires d rest (some (t + d, p))
      | some (ft, fp) =>
          if ft ≤ t then (ft, fp) :: debounceFires d rest (some (t + d, p))
          else debounceFires d rest (some (t + d, p))

/-- A burst relative to a previous call time: each subsequent schedule
time strictly increases and follows its predecessor by less than the
debounce delay. -/
def burstAfter {α : Type} (d : Nat) : Nat → List (Nat × α) → Bool
  | _, [] => true
  | prev, (t, _) :: rest => decide (prev < t) && decide (t < prev + d) && burstAfter d t rest

/-- The last schedule call of a burst given as a head event and the
remaining events. -/
def lastEvent {α : Type} (e : Nat × α) (es : List (Nat × α)) : Nat × α :=
  es.getLastD e

-- ----------------------------------------------------------------------
-- Theorems
-- ----------------------------------------------------------------------

theorem lookupAssoc_setAssoc_self {α : Type} (l : List (String × α)) (k : String) (v : α) :
    lookupAssoc (setAssoc l k v) k = some v := by
  induction l with
  | nil => simp [setAssoc, lookupAssoc]
  | cons hd tl ih =>
      obtain ⟨k', w⟩ := hd
      by_cases h : k' = k
      · simp [setAssoc, lookupAssoc, h]
      · simp [setAssoc, lookupAssoc, h, ih]

theorem lookupAssoc_setAssoc_other {α : Type} (l : List (String × α)) (k k' : String) (v : α)
    (h : k' ≠ k) : lookupAssoc (setAssoc l k v) k' = lookupAssoc l k' := by
  have h' : k ≠ k' := Ne.symm h
  induction l with
  | nil => simp [setAssoc, lookupAssoc, h']
  | cons hd tl ih =>
      obtain ⟨k0, w⟩ := hd
      by_cases h0 : k0 = k
      · subst h0
        simp [setAssoc, lookupAssoc, h']
      · by_cases h1 : k0 = k'
        · subst h1
          simp [setAssoc, lookupAssoc, h0]
        · simp [setAssoc, lookupAssoc, h0, h1, ih]

theorem lookupAssoc_removeAssoc_self {α : Type} (l : List (String × α)) (k : String) :
    lookupAssoc (removeAssoc l k) k = none := by
  induction l with
  | nil => simp [removeAssoc, lookupAssoc]
  | cons hd tl ih =>
      obtain ⟨k', w⟩ := hd
      by_cases h : k' = k
      · simp [removeAssoc, h, ih]
      · simp [removeAssoc, lookupAssoc, h, ih]

theorem jsSubscribe_state_eq (s : Js.AdvancedStateStore) (k : String) (c : Nat) :
    (Js.AdvancedStateStore.subscribe s k c).state = s.state := rfl

theorem jsSubscribe_lookup_self (s : Js.AdvancedStateStore) (k : String) (c : Nat) :
    lookupAssoc (Js.AdvancedStateStore.subscribe s k c).subscribers k
      = some (if c ∈ (lookupAssoc s.subscribers k).getD []
              then (lookupAssoc s.subscribers k).getD []
              else (lookupAssoc s.subscribers k).getD [] ++ [c]) := by
  simp [Js.AdvancedStateStore.subscribe, lookupAssoc_setAssoc_self]


/-- C6 counterexample: the claim says PublishStore.set is a no-op when the
value equals the currently stored value, with no subscriber invoked; but
createStore().setState in src/src/index.jsx has no equality guard.  On a
store holding "v" at key "k" with one subscriber, setState "k" "v"
invokes that subscriber even though the value is unchanged. -/
theorem storeSet_jsx_cex :
    (Jsx.Store.setState ⟨[0], [("k", Json.str "v")]⟩ "k" (Json.str "v")).2
      = [(0, "k", Json.str "v")] ∧
    (Jsx.Store.setState ⟨[0], [("k", Json.str "v")]⟩ "k" (Json.str "v")).2 ≠ [] := by
  constructor
  · rfl
  · decide

/-- C6 (amended): in src/src/index.js, AdvancedStateStore.set is a no-op
(store unchanged, no subscriber invoked) when the new value equals the
stored one, and otherwise stores the value and invokes exactly the
subscribers registered for that key, in registration order (here: the
callbacks c₁ then c₂ registered by two subscribe calls on a key with no
prior subscribers).  In src/src/index.jsx, setState always stores and
always notifies every subscriber of the store — subscription is
store-wide, each callback receiving the pair (key, value) — even when
the value is unchanged. -/
theorem storeSet_amended :
    (∀ (s : Js.AdvancedStateStore) (k : String) (v : Json),
        lookupAssoc s.state k = some v → Js.AdvancedStateStore.set s k v = (s, [])) ∧
    (∀ (s : Js.AdvancedStateStore) (k : String) (v : Json) (c₁ c₂ : Nat),
        lookupAssoc s.state k ≠ some v →
        lookupAssoc s.subscribers k = none →
        c₁ ≠ c₂ →
        (Js.AdvancedStateStore.set (Js.AdvancedStateStore.subscribe
            (Js.AdvancedStateStore.subscribe s k c₁) k c₂) k v).2 = [c₁, c₂] ∧
        Js.AdvancedStateStore.get
          (Js.AdvancedStateStore.set (Js.AdvancedStateStore.subscribe
            (Js.AdvancedStateStore.subscribe s k c₁) k c₂) k v).1 k = some v) ∧
    (∀ (s : Jsx.Store) (k : String) (v : Json),
        (Jsx.Store.setState s k v).2 = s.subscribers.map (fun c => (c, k, v)) ∧
        Jsx.Store.getState (Jsx.Store.setState s k v).1 k = some v) := by
  refine ⟨?_, ?_, ?_⟩
  · intro s k v h
    simp [Js.AdvancedStateStore.set, h]
  · intro s k v c₁ c₂ hne hsub hcc
    have h1 : lookupAssoc (Js.AdvancedStateStore.subscribe s k c₁).subscribers k
        = some [c₁] := by
      rw [jsSubscribe_lookup_self, hsub]
      simp
    have h2 : lookupAssoc (Js.AdvancedStateStore.subscribe
        (Js.AdvancedStateStore.subscribe s k c₁) k c₂).subscribers k
        = some [c₁, c₂] := by
      rw [jsSubscribe_lookup_self, h1]
      simp [Ne.symm hcc]
    have hst : (Js.AdvancedStateStore.subscribe
        (Js.AdvancedStateStore.subscribe s k c₁) k c₂).state = s.state := by
      rw [jsSubscribe_state_eq, jsSubscribe_state_eq]
    constructor
    · simp [Js.AdvancedStateStore.set, hst, hne, h2]
    · simp [Js.AdvancedStateStore.set, Js.AdvancedStateStore.get, hst, hne,
        lookupAssoc_setAssoc_self]
  · intro s k v
    exact ⟨rfl, by simp [Jsx.Store.setState, Jsx.Store.getState, lookupAssoc_setAssoc_self]⟩

/-- C6 witness: instantiating the amended theorem on concrete stores. -/
theorem storeSet_amended_witness :
    Js.AdvancedStateStore.set ⟨[("k", Json.str "v")], []⟩ "k" (Json.str "v")
      = (⟨[("k", Json.str "v")], []⟩, []) ∧
    (Js.AdvancedStateStore.set (Js.AdvancedStateStore.subscribe
        (Js.AdvancedStateStore.subscribe ⟨[], []⟩ "k" 1) "k" 2) "k" (Json.str "w")).2
      = [1, 2] := by
  constructor
  · exact storeSet_amended.1 ⟨[("k", Json.str "v")], []⟩ "k" (Json.str "v") (by decide)
  · exact (storeSet_amended.2.1 ⟨[], []⟩ "k" (Json.str "w") 1 2
      (by decide) (by decide) (by decide)).1

/-- C10: createStore().initState in src/src/index.jsx never invokes any
subscriber callback; it leaves the subscriber set untouched, records the
value only when the key is absent, and leaves an already-present stored
value unchanged — the value found at the key afterwards is the old value
when one was present and the supplied value otherwise.  Only setState
produces notifications (nonempty exactly when subscribers exist). -/
theorem initState_silent :
    ∀ (s : Jsx.Store) (k : String) (v : Json),
      (Jsx.Store.initState s k v).2 = [] ∧
      (Jsx.Store.initState s k v).1.subscribers = s.subscribers ∧
      Jsx.Store.getState (Jsx.Store.initState s k v).1 k
        = some ((lookupAssoc s.stateValues k).getD v) ∧
      (∀ k', k' ≠ k →
        Jsx.Store.getState (Jsx.Store.initState s k v).1 k' = Jsx.Store.getState s k') ∧
      ((Jsx.Store.setState s k v).2 = [] ↔ s.subscribers = []) := by
  intro s k v
  refine ⟨?_, ?_, ?_, ?_, ?_⟩
  · unfold Jsx.Store.initState
    by_cases h : (lookupAssoc s.stateValues k).isSome <;> simp [h]
  · unfold Jsx.Store.initState
    by_cases h : (lookupAssoc s.stateValues k).isSome <;> simp [h]
  · unfold Jsx.Store.initState Jsx.Store.getState
    cases h : lookupAssoc s.stateValues k with
    | none => simp [h, lookupAssoc_setAssoc_self]
    | some w => simp [h]
  · intro k' hk
    unfold Jsx.Store.initState Jsx.Store.getState
    by_cases h : (lookupAssoc s.stateValues k).isSome
    · simp [h]
    · simp [h, lookupAssoc_setAssoc_other s.stateValues k k' v hk]
  · unfold Jsx.Store.setState
    simp

/-- C5 counterexample: the claim says every resolved scoped storage key
has the shape prefix:scope:key and that the concrete scoped key for
key "name" under query appId=x1 is "advState:x1:name"; but
getScopedStorageKey in src/src/index.js composes
"advancedState:param:" with the parameter name and value, ignores the
property key and the provider prefix entirely, and so produces
"advancedState:param:appId:x1" for that input. -/
theorem scopedKey_js_cex :
    Js.getScopedStorageKey (some "appId") none [("appId", "x1")] []
      = "advancedState:param:appId:x1" ∧
    Js.getScopedStorageKey (some "appId") none [("appId", "x1")] []
      ≠ "advState:x1:name" := by
  exact ⟨by decide, by decide⟩

/-- C5 (amended): in src/src/index.jsx the scoped key is prefix:scope:key
with the scope segment omitted when no scope source is configured, and
the two concrete scenarios of the claim hold there (query appId=x1 gives
"advState:x1:name", appId=x2 gives "advState:x2:name").  In
src/src/index.js the storage key is instead a scope-level key of the
form "advancedState:param:name:value", "advancedState:path:scope" or
"advancedState:global" that does not contain the property key; the
property is addressed inside the JSON object stored at that key. -/
theorem scopedKey_amended :
    Jsx.getScopedStorageKey "advState" (some "appId") none [("appId", "x1")] [] "name"
      = "advState:x1:name" ∧
    Jsx.getScopedStorageKey "advState" (some "appId") none [("appId", "x2")] [] "name"
      = "advState:x2:name" ∧
    (∀ pfx key : String, pfx ≠ "" → key ≠ "" →
      Jsx.getScopedStorageKey pfx none none [] [] key = pfx ++ ":" ++ key) ∧
    (∀ (pfx n v key : String) (params : List (String × String)),
      lookupAssoc params n = some v → v ≠ "" → pfx ≠ "" → key ≠ "" →
      Jsx.getScopedStorageKey pfx (some n) none params [] key
        = pfx ++ ":" ++ v ++ ":" ++ key) ∧
    (∀ (scopeByUrlParam scopeByUrlPath : Option String)
       (params : List (String × String)) (segs : List String),
      ∃ t : String, Js.getScopedStorageKey scopeByUrlParam scopeByUrlPath params segs
        = "advancedState:" ++ t) := by
  refine ⟨by decide, by decide, ?_, ?_, ?_⟩
  · intro pfx key hp hk
    simp [Jsx.getScopedStorageKey, truthyFilter, joinColon, hp, hk]
  · intro pfx n v key params hl hv hp hk
    simp [Jsx.getScopedStorageKey, Jsx.getUrlParam, hl, hv, truthyFilter, joinColon,
      hp, hk, String.append_assoc]
  · intro sp spath params segs
    have h0 : ("advancedState:" : String) ++ "param:" = "advancedState:param:" := rfl
    have h1 : ("advancedState:" : String) ++ "path:" = "advancedState:path:" := rfl
    cases sp with
    | some p =>
        refine ⟨"param:" ++ p ++ ":" ++ Js.getUrlParam p params, ?_⟩
        rw [Js.getScopedStorageKey]
        simp only [← String.append_assoc]
        rw [h0]
    | none =>
        cases spath with
        | some pat =>
            refine ⟨"path:" ++ Js.parsePathScope pat segs, ?_⟩
            rw [Js.getScopedStorageKey]
            simp only [← String.append_assoc]
            rw [h1]
        | none => exact ⟨"global", rfl⟩

/-- C5 witness: the amended theorem instantiated on concrete inputs. -/
theorem scopedKey_amended_witness :
    Jsx.getScopedStorageKey "advState" none none [] [] "name" = "advState:name" ∧
    Jsx.getScopedStorageKey "pfx" (some "q") none [("q", "s1")] [] "k" = "pfx:s1:k" := by
  constructor
  · exact scopedKey_amended.2.2.1 "advState" "name" (by decide) (by decide)
  · exact scopedKey_amended.2.2.2.1 "pfx" "q" "s1" "k" [("q", "s1")]
      (by decide) (by decide) (by decide) (by decide)

/-- C7 counterexample: the claim says an absent query parameter named n
resolves the scope to "default-" followed by n, so keys scoped by
different absent parameter names never collide; but in
src/src/index.jsx the fallback is the fixed string "default-param"
for every parameter name, and the scoped keys of two bindings scoped by
the distinct absent parameters "alpha" and "beta" coincide. -/
theorem paramScope_collision_cex :
    Jsx.getScopedStorageKey "advState" (some "alpha") none [] [] "k"
      = Jsx.getScopedStorageKey "advState" (some "beta") none [] [] "k" ∧
    "alpha" ≠ "beta" ∧
    Jsx.getScopedStorageKey "advState" (some "alpha") none [] [] "k"
      = "advState:default-param:k" := by
  exact ⟨rfl, by decide, by decide⟩

/-- C7 (amended): in src/src/index.js, getUrlParam substitutes the
name-dependent placeholder "default-" ++ name for an absent parameter
(and the parameter name additionally appears in the scoped key); in
src/src/index.jsx, the fallback scope is the fixed string
"default-param" regardless of the parameter name, so the scoped key of
a binding scoped by an absent parameter does not depend on the
parameter name at all, and different absent parameter names collide on
identical scoped keys. -/
theorem paramScope_amended :
    (∀ n : String, Js.getUrlParam n [] = "default-" ++ n) ∧
    (∀ (pfx key n : String),
      Jsx.getScopedStorageKey pfx (some n) none [] [] key
        = joinColon (truthyFilter [pfx, "default-param", key])) ∧
    (∀ (pfx key a b : String),
      Jsx.getScopedStorageKey pfx (some a) none [] [] key
        = Jsx.getScopedStorageKey pfx (some b) none [] [] key) := by
  exact ⟨fun n => rfl, fun pfx key n => rfl, fun pfx key a b => rfl⟩

/-- C8 counterexample: the claim says every out-of-range placeholder is
replaced by the fixed string "default"; but parsePathScope in
src/src/index.jsx replaces it by the empty string, so pattern "doc_$5"
against path segments ["app", "proj42", "view"] resolves to "doc_"
rather than "doc_default". -/
theorem pathScope_jsx_cex :
    Jsx.parsePathScope "doc_$5" ["app", "proj42", "view"] = some "doc_" ∧
    Jsx.parsePathScope "doc_$5" ["app", "proj42", "view"] ≠ some "doc_default" := by
  exact ⟨by decide, by decide⟩

/-- C8 (amended): both variants replace an in-range placeholder by the
1-indexed path segment — pattern "doc_$2" against segments
["app", "proj42", "view"] resolves to "doc_proj42" in both — but an
out-of-range placeholder index is replaced by the fixed string
"default" only in src/src/index.js; in src/src/index.jsx it is replaced
by the empty string (with a wholly empty result falling back to the
scope "default-path" at key construction). -/
theorem pathScope_amended :
    Js.parsePathScope "doc_$2" ["app", "proj42", "view"] = "doc_proj42" ∧
    Jsx.parsePathScope "doc_$2" ["app", "proj42", "view"] = some "doc_proj42" ∧
    Js.parsePathScope "doc_$5" ["app", "proj42", "view"] = "doc_default" ∧
    Jsx.parsePathScope "doc_$5" ["app", "proj42", "view"] = some "doc_" ∧
    (∀ (segs : List String) (n : Nat), segs.length < n →
      substSegment_js segs n = "default" ∧ substSegment_jsx segs n = "") ∧
    (∀ (segs : List String) (n : Nat), 1 ≤ n → n ≤ segs.length →
      substSegment_js segs n = segs.getD (n - 1) "" ∧
      substSegment_jsx segs n = segs.getD (n - 1) "") := by
  refine ⟨by decide, by decide, by decide, by decide, ?_, ?_⟩
  · intro segs n h
    have hn : ¬(1 ≤ n ∧ n ≤ segs.length) := by omega
    exact ⟨by simp [substSegment_js, hn], by simp [substSegment_jsx, hn]⟩
  · intro segs n h1 h2
    exact ⟨by simp [substSegment_js, h1, h2], by simp [substSegment_jsx, h1, h2]⟩

/-- C8 witness: the amended theorem instantiated at an out-of-range and
an in-range placeholder index. -/
theorem pathScope_amended_witness :
    (substSegment_js ["app"] 2 = "default" ∧ substSegment_jsx ["app"] 2 = "") ∧
    (substSegment_js ["app"] 1 = "app" ∧ substSegment_jsx ["app"] 1 = "app") := by
  constructor
  · exact pathScope_amended.2.2.2.2.1 ["app"] 2 (by decide)
  · exact pathScope_amended.2.2.2.2.2 ["app"] 1 (by decide) (by decide)

/-- C9 counterexample: the claim quantifies over every JSON-serializable
value, but writeToStorage in src/src/index.js deletes the property when
the written value is null; reading back under the same scoped key then
yields absent, not null. -/
theorem roundTrip_null_cex :
    Js.readFromStorage (Js.writeToStorage (some []) "sk" "pk" (some Json.null)) "sk" "pk"
      = none ∧
    Js.readFromStorage (Js.writeToStorage (some []) "sk" "pk" (some Json.null)) "sk" "pk"
      ≠ some Json.null := by
  exact ⟨by decide, by decide⟩

/-- C9 (amended): for every JSON-serializable value other than null,
writing through the storage adapter of src/src/index.js and reading
back under the same scoped key and engine state yields the written
value; writing null instead removes the record, and the read-back is
absent. -/
theorem roundTrip_amended :
    (∀ (st : Js.Storage) (sk pk : String) (v : Json), v ≠ Json.null →
      Js.readFromStorage (Js.writeToStorage (some st) sk pk (some v)) sk pk = some v) ∧
    (∀ (st : Js.Storage) (sk pk : String),
      Js.readFromStorage (Js.writeToStorage (some st) sk pk (some Json.null)) sk pk
        = none) := by
  constructor
  · intro st sk pk v hv
    cases v with
    | null => exact absurd rfl hv
    | bool b =>
        simp [Js.writeToStorage, Js.readFromStorage, lookupAssoc_setAssoc_self]
    | num n =>
        simp [Js.writeToStorage, Js.readFromStorage, lookupAssoc_setAssoc_self]
    | str s =>
        simp [Js.writeToStorage, Js.readFromStorage, lookupAssoc_setAssoc_self]
    | arr xs =>
        simp [Js.writeToStorage, Js.readFromStorage, lookupAssoc_setAssoc_self]
    | obj fs =>
        simp [Js.writeToStorage, Js.readFromStorage, lookupAssoc_setAssoc_self]
  · intro st sk pk
    simp [Js.writeToStorage, Js.readFromStorage, lookupAssoc_setAssoc_self,
      lookupAssoc_removeAssoc_self]

/-- C9 witness: the amended round trip instantiated on a concrete string
value and the empty engine. -/
theorem roundTrip_amended_witness :
    Js.readFromStorage (Js.writeToStorage (some []) "sk" "pk" (some (Json.str "v")))
      "sk" "pk" = some (Json.str "v") :=
  roundTrip_amended.1 [] "sk" "pk" (Json.str "v") (by decide)

/-- C1 counterexample: the claim says the PublishStore value wins over an
existing durable record whenever notify includes same-process sharing;
but getInitialValue in src/src/index.jsx checks storage first, so with
the store holding "A" for the key and the durable record holding "B",
the binding resolves to "B" while the claimed priority yields "A". -/
theorem initPriority_cex :
    (Jsx.getInitialValue (some [("sk", Json.str "B")]) "sk" Notify.crossComponentAndTab
        ⟨[], [("k", Json.str "A")]⟩ "k" (some (Json.str "I"))).1 = some (Json.str "B") ∧
    specInitialValue true (some (Json.str "A")) true (some (Json.str "B"))
        (some (Json.str "I")) = some (Json.str "A") ∧
    some (Json.str "B") ≠ some (Json.str "A") := by
  exact ⟨by decide, by decide, by decide⟩

/-- C1 (amended): the lazy initializer of src/src/index.js resolves
exactly in the claimed priority order — store value (when notify
includes same-process sharing and the store holds one), else durable
record (when a storage engine is configured and the per-key record
exists), else the caller initial.  In src/src/index.jsx the durable
record is checked first: whenever persist is configured and a record
exists at the scoped key, the binding resolves to that record
regardless of the store contents, and the store / initial fallbacks
apply only when no record exists. -/
theorem initPriority_amended :
    (∀ (notify : Notify) (storeVal : Option Json) (storage : Option Js.Storage)
       (sk pk : String) (initial : Option Json),
      Js.stateInit notify storeVal storage sk pk initial
        = specInitialValue notify.includesComponent storeVal storage.isSome
            (Js.readFromStorage storage sk pk) initial) ∧
    (∀ (st : Jsx.Storage) (sk : String) (notify : Notify) (store : Jsx.Store)
       (key : String) (initial : Option Json) (v : Json),
      lookupAssoc st sk = some v →
      (Jsx.getInitialValue (some st) sk notify store key initial).1 = some v) := by
  constructor
  · intro notify storeVal storage sk pk initial
    by_cases h : notify.includesComponent = true ∧ storeVal.isSome = true
    · simp [Js.stateInit, specInitialValue, h]
    · cases storage with
      | none => simp [Js.stateInit, specInitialValue, h, Js.readFromStorage]
      | some st =>
          cases hr : Js.readFromStorage (some st) sk pk with
          | none => simp [Js.stateInit, specInitialValue, h, hr]
          | some sv => simp [Js.stateInit, specInitialValue, h, hr]
  · intro st sk notify store key initial v hl
    simp [Jsx.getInitialValue, hl]

/-- C1 witness: the amended theorem instantiated — src/src/index.jsx
resolves a present durable record ahead of everything. -/
theorem initPriority_amended_witness :
    (Jsx.getInitialValue (some [("sk", Json.str "B")]) "sk" Notify.off
        ⟨[], []⟩ "k" none).1 = some (Json.str "B") :=
  initPriority_amended.2 [("sk", Json.str "B")] "sk" Notify.off ⟨[], []⟩ "k" none
    (Json.str "B") (by decide)

theorem getLastD_cons_eq {α : Type} (a b : α) (l : List α) :
    (a :: l).getLastD b = l.getLastD a := by
  cases l with
  | nil => rfl
  | cons c cs => rfl

theorem debounceFires_burst {α : Type} (d : Nat) :
    ∀ (es : List (Nat × α)) (c : Nat) (p : α), burstAfter d c es = true →
      debounceFires d es (some (c + d, p))
        = [((lastEvent (c, p) es).1 + d, (lastEvent (c, p) es).2)] := by
  intro es
  induction es with
  | nil =>
      intro c p h
      simp [debounceFires, lastEvent]
  | cons e rest ih =>
      intro c p h
      obtain ⟨t, q⟩ := e
      simp only [burstAfter, Bool.and_eq_true, decide_eq_true_eq] at h
      obtain ⟨⟨h1, h2⟩, h3⟩ := h
      have hlt : ¬(c + d ≤ t) := by omega
      simp only [debounceFires, if_neg hlt]
      rw [ih t q h3]
      simp only [lastEvent]
      rw [getLastD_cons_eq]

/-- C2: the claim (and the README feature list) says the visible value
updates synchronously for every debounce delay, with only the
side-effecting sync deferred.  src/src/index.jsx behaves exactly so:
every setFn call sets the visible value to the new value.  But in
src/src/index.js, setFn with debounce > 0 places the ENTIRE update —
including the visible-value setValue — inside the timeout: the binding
state keeps its old visible value and unchanged storage, holding only
the pending payload.  At the failing input (debounce 300, visible value
"old", set "new"), the visible value observable right after the call is
still "old". -/
theorem setterSync_bug :
    (∀ (cfg : Jsx.Config) (b : Jsx.Binding) (v : Json),
      (Jsx.setFn cfg b v).localValue = some v) ∧
    (∀ (cfg : Js.Config) (b : Js.Binding) (v : Json), 0 < cfg.debounce →
      Js.setFn cfg b v = { b with pending := some v }) ∧
    (Js.setFn ⟨"k", "sk", 300, Notify.off⟩
        ⟨some (Json.str "old"), none, some [], none⟩ (Json.str "new")).localValue
      = some (Json.str "old") := by
  refine ⟨?_, ?_, by decide⟩
  · intro cfg b v
    simp [Jsx.setFn]
  · intro cfg b v h
    simp [Js.setFn, h]

/-- C2 witness: the deferred-update equation of the theorem instantiated
at the failing input. -/
theorem setterSync_bug_witness :
    Js.setFn ⟨"k", "sk", 300, Notify.off⟩
        ⟨some (Json.str "old"), none, some [], none⟩ (Json.str "new")
      = ⟨some (Json.str "old"), some (Json.str "new"), some [], none⟩ :=
  setterSync_bug.2.1 ⟨"k", "sk", 300, Notify.off⟩
    ⟨some (Json.str "old"), none, some [], none⟩ (Json.str "new") (by decide)

/-- C3: trailing-edge debounce.  For every burst of N ≥ 1 schedule calls
(times strictly increasing, consecutive calls less than the delay d
apart), the timer semantics shared by both variants produces exactly
one sync invocation; it carries the payload of the last call of the
burst and runs exactly d after that last call — in particular not
before d has elapsed since it.  Each intermediate schedule cancels the
pending timer and restarts it with the newest payload, which is what
the proof's invariant tracks. -/
theorem debounce_trailing_edge {α : Type} (d t0 : Nat) (p0 : α) (es : List (Nat × α))
    (h : burstAfter d t0 es = true) :
    debounceFires d ((t0, p0) :: es) none
      = [((lastEvent (t0, p0) es).1 + d, (lastEvent (t0, p0) es).2)] := by
  have h0 : debounceFires d ((t0, p0) :: es) none
      = debounceFires d es (some (t0 + d, p0)) := rfl
  rw [h0]
  exact debounceFires_burst d es t0 p0 h

/-- C3 witness: a three-call burst with d = 10 at times 0, 5, 9 fires
exactly once, at time 19, carrying the last payload. -/
theorem debounce_trailing_edge_witness :
    debounceFires 10 [(0, "a"), (5, "b"), (9, "c")] none = [(19, "c")] := by
  have h := debounce_trailing_edge 10 0 "a" [(5, "b"), (9, "c")] (by decide)
  simpa [lastEvent] using h

/-- C4: the claim (and the spec's state machine) requires teardown to
cancel any pending debounce timer so no further side effects occur; but
the effect cleanup of src/src/index.js only unsubscribes — it never
touches the pending timeout (and src/src/index.jsx has no cleanup for
its debounced closure at all), so a sync scheduled before teardown
still fires: at the failing input, the pending payload survives
cleanup, the timer's update callback runs writeToStorage, and the
durable record "v" appears in storage after the binding is gone. -/
theorem teardown_pending_timer_fires :
    (∀ b : Js.Mounted, (Js.cleanup b).pending = b.pending) ∧
    Js.cleanup ⟨true, true, some (Json.str "v")⟩
      = ⟨false, false, some (Json.str "v")⟩ ∧
    Js.firePending ⟨"k", "sk", 300, Notify.off⟩ (some [])
        (Js.cleanup ⟨true, true, some (Json.str "v")⟩)
      = some [("sk", [("k", Json.str "v")])] ∧
    Js.readFromStorage
        (Js.firePending ⟨"k", "sk", 300, Notify.off⟩ (some [])
          (Js.cleanup ⟨true, true, some (Json.str "v")⟩)) "sk" "k"
      = some (Json.str "v") := by
  exact ⟨fun b => rfl, by decide, by decide, by decide⟩
